import Mathlib

/-!
Verification of the yosys-netlist → simcir-diagram converter (`src/process.js`).

The JavaScript source is shallowly embedded below.  JS objects (string- or
integer-keyed maps) are modelled as association lists whose keys are distinct;
property assignment is `jsSet` (replace in place, else append, matching JS
property-creation/iteration order).  Reading an absent property yields
`Option.none` (JS `undefined`); operations that throw in JS (`assert`,
`throw Error`, property access on `undefined`) return `Except.error`.
`for (const k in obj)` over a net table whose keys are integers iterates in
ascending numeric order, with the `"undefined"` key (modelled as the `none`
key) last; this is reproduced by `sortNets`.
-/

namespace Y2D

/-- Run-time failures of the conversion: `assert(...)` failures, `throw
Error(msg)`, and TypeErrors from accessing properties of `undefined`. -/
inductive Err where
  | assertFail (site : String)
  | jsThrow (msg : String)
  | typeError (site : String)
deriving DecidableEq, Repr

/-- A yosys port: `{direction, bits}`. -/
structure Port where
  direction : String
  bits : List Nat
deriving DecidableEq, Repr

/-- A yosys cell: `{type, port_directions, connections}`. -/
structure Cell where
  type : String
  port_directions : List (String × String)
  connections : List (String × List Nat)
deriving DecidableEq, Repr

/-- A yosys module: `{ports, cells}` (both JS objects, keyed by name). -/
structure Module where
  ports : List (String × Port)
  cells : List (String × Cell)
deriving DecidableEq, Repr

/-- The input netlist document: `{modules}`. -/
structure Netlist where
  modules : List (String × Module)
deriving DecidableEq, Repr

/-- An emitted device (`src/process.js`, lines 97-103 and 122-127).  Port
devices carry `order: n` (the counter value AFTER `gen_name` incremented it);
cell devices have no `order` property, modelled as `none`. -/
structure Device where
  id : String
  type : String
  x : Nat
  y : Nat
  label : String
  order : Option Nat
deriving DecidableEq, Repr

/-- A connector `{from, to}`.  `to` is `net.source`, which the source never
checks for definedness, so it may be JS `undefined` — modelled as `none`. -/
structure Connector where
  cFrom : String
  cTo : Option String
deriving DecidableEq, Repr

/-- A per-module output record `{width, height, devices, connectors}`. -/
structure ModuleOut where
  width : Nat
  height : Nat
  devices : List Device
  connectors : List Connector
deriving DecidableEq, Repr

/-- A net-table entry `{source: undefined, targets: []}` (line 74). -/
structure NetEntry where
  source : Option String
  targets : List String
deriving DecidableEq, Repr

/-- The net table `nets`.  Keys are net ids; the `none` key models the JS
`"undefined"` key that `pconn[0]` of an empty list would produce. -/
abbrev Nets := List (Option Nat × NetEntry)

/-- JS object property assignment `m[k] = v`: overwrite in place if the key
exists, otherwise append (new properties iterate last). -/
def jsSet {κ β : Type} [DecidableEq κ] : List (κ × β) → κ → β → List (κ × β)
  | [], k, v => [(k, v)]
  | kv :: rest, k, v => if kv.1 = k then (k, v) :: rest else kv :: jsSet rest k v

/-- Build a JS object from a list of property assignments starting from `{}`. -/
def jsObj {κ β : Type} [DecidableEq κ] (l : List (κ × β)) : List (κ × β) :=
  l.foldl (fun m kv => jsSet m kv.1 kv.2) []

/-- `get_net` (lines 72-76): the entry for net `k`, defaulting to
`{source: undefined, targets: []}` (the JS version also inserts the default;
the insertion is folded into `add_net_source`/`add_net_target` below). -/
def get_net (nets : Nets) (k : Option Nat) : NetEntry :=
  (nets.lookup k).getD { source := none, targets := [] }

/-- `add_net_source` (lines 77-81): `assert(net.source === undefined)`, then
set the driver endpoint. -/
def add_net_source (nets : Nets) (k : Option Nat) (d p : String) : Except Err Nets :=
  match (get_net nets k).source with
  | some _ => .error (.assertFail "net.source === undefined")
  | none => .ok (jsSet nets k ⟨some (d ++ "." ++ p), (get_net nets k).targets⟩)

/-- `add_net_target` (lines 82-85): push a listener endpoint. -/
def add_net_target (nets : Nets) (k : Option Nat) (d p : String) : Nets :=
  jsSet nets k ⟨(get_net nets k).source, (get_net nets k).targets ++ [d ++ "." ++ p]⟩

/-- Stable insertion into a list sorted by the boolean comparator `le`. -/
def insertLe {α : Type} (le : α → α → Bool) (x : α) : List α → List α
  | [] => [x]
  | y :: ys => if le x y then x :: y :: ys else y :: insertLe le x ys

/-- Stable sort by the boolean comparator `le` (models `Array.prototype.sort`
with a comparator, which is stable). -/
def isortLe {α : Type} (le : α → α → Bool) : List α → List α
  | [] => []
  | x :: xs => insertLe le x (isortLe le xs)

/-- `{name: pname, num: port.bits[0]}` (line 45).  `bits[0]` of an empty list
is JS `undefined`, hence `Option Nat`. -/
structure PData where
  name : String
  num : Option Nat
deriving DecidableEq, Repr

/-- The sort comparator `(a, b) => a.num - b.num` (lines 52-54) as the "keep
`a` before `b`" test used by a stable comparison sort: true iff the comparator
result is `<= 0` or `NaN` (the `undefined - x = NaN` case never reorders). -/
def pdataLe (a b : PData) : Bool :=
  match a.num, b.num with
  | some x, some y => decide (x ≤ y)
  | _, _ => true

/-- Ordering of `PData` by bit index (absent index reads as 0); used only to
state and prove sortedness of the port order. -/
def pdR (a b : PData) : Prop := a.num.getD 0 ≤ b.num.getD 0

instance : DecidableRel pdR := fun a b =>
  inferInstanceAs (Decidable (a.num.getD 0 ≤ b.num.getD 0))

instance : IsTotal PData pdR := ⟨fun a b => Nat.le_total _ _⟩

instance : IsTrans PData pdR := ⟨fun _ _ _ => Nat.le_trans⟩

/-- `for (const pname in mod.ports)` of lines 43-51: split ports into the
`ins` and `outs` arrays in declaration order, throwing at the first invalid
direction. -/
def partitionPorts : List (String × Port) → Except Err (List PData × List PData)
  | [] => .ok ([], [])
  | pp :: rest =>
    match pp.2.direction with
    | "input" =>
      match partitionPorts rest with
      | .error e => .error e
      | .ok io => .ok (⟨pp.1, pp.2.bits.head?⟩ :: io.1, io.2)
    | "output" =>
      match partitionPorts rest with
      | .error e => .error e
      | .ok io => .ok (io.1, ⟨pp.1, pp.2.bits.head?⟩ :: io.2)
    | d => .error (.jsThrow ("Invalid port direction: " ++ d))

/-- `for (const k in ins) portmap[ins[k].name] = "in" + k` (lines 57-58): the
assignment list for one direction group. -/
def mkSlots (pre : String) (l : List PData) : List (String × String) :=
  l.enum.map fun ip => (ip.2.name, pre ++ toString ip.1)

/-- The fixed mapping `{A: 'in0', B: 'in1', Y: 'out0'}` (line 36). -/
def binmap : List (String × String) := [("A", "in0"), ("B", "in1"), ("Y", "out0")]

/-- The portmaps table for one type. -/
abbrev Portmaps := List (String × List (String × String))

/-- `['$and', '$or', '$xor'].forEach((nm) => out[nm] = binmap)` (line 38). -/
def gatesBase : Portmaps :=
  jsObj [("$and", binmap), ("$or", binmap), ("$xor", binmap)]

/-- The body of the per-module loop of `order_ports` (lines 40-59). -/
def module_portmap (mod : Module) : Except Err (List (String × String)) :=
  match partitionPorts mod.ports with
  | .error e => .error e
  | .ok io =>
    .ok (jsObj (mkSlots "in" (isortLe pdataLe io.1) ++ mkSlots "out" (isortLe pdataLe io.2)))

/-- `order_ports` (lines 35-62). -/
def order_ports (data : Netlist) : Except Err Portmaps :=
  data.modules.foldlM (fun out nm =>
    match module_portmap nm.2 with
    | .error e => .error e
    | .ok pm => .ok (jsSet out nm.1 pm)) gatesBase

/-- Mutable state of the per-module conversion closure: the device-id counter
`n`, the net table `nets`, and `mout.devices`. -/
structure ConvSt where
  n : Nat
  nets : Nets
  devices : List Device
deriving DecidableEq, Repr

/-- The port loop body of `yosys_to_simcir` (lines 94-117).  Note the width
assertion (line 104) precedes the direction switch. -/
def process_port (st : ConvSt) (pname : String) (port : Port) : Except Err ConvSt :=
  let dname := "dev" ++ toString st.n
  let n' := st.n + 1
  if port.bits.length = 1 then
    match port.direction with
    | "input" =>
      match add_net_source st.nets port.bits.head? dname "out0" with
      | .error e => .error e
      | .ok nets' => .ok ⟨n', nets', st.devices ++ [⟨dname, "In", 0, 0, pname, some n'⟩]⟩
    | "output" =>
      .ok ⟨n', add_net_target st.nets port.bits.head? dname "in0",
           st.devices ++ [⟨dname, "Out", 0, 0, pname, some n'⟩]⟩
    | d => .error (.jsThrow ("Invalid port direction: " ++ d))
  else .error (.assertFail "port.bits.length == 1")

/-- `assert(cell.connections.X.length == 1)` (lines 138-140): accessing
`.length` of an absent connection is a TypeError; a length other than one is
an assertion failure. -/
def checkConnLen1 (cell : Cell) (pn : String) : Except Err Unit :=
  match cell.connections.lookup pn with
  | none => .error (.typeError ("cell.connections." ++ pn ++ ".length"))
  | some l =>
    if l.length = 1 then .ok ()
    else .error (.assertFail ("cell.connections." ++ pn ++ ".length == 1"))

/-- `assert(cell.port_directions.X == dir)` (lines 141-143): comparing an
absent property (`undefined`) to a string is `false`, an assertion failure. -/
def checkDir (cell : Cell) (pn dir : String) : Except Err Unit :=
  if cell.port_directions.lookup pn = some dir then .ok ()
  else .error (.assertFail ("cell.port_directions." ++ pn ++ " == " ++ dir))

/-- The `$and`/`$or`/`$xor` sanity assertions (lines 137-143), in source
order. -/
def gateAsserts (cell : Cell) : Except Err Unit :=
  match checkConnLen1 cell "A" with
  | .error e => .error e
  | .ok _ =>
    match checkConnLen1 cell "B" with
    | .error e => .error e
    | .ok _ =>
      match checkConnLen1 cell "Y" with
      | .error e => .error e
      | .ok _ =>
        match checkDir cell "A" "input" with
        | .error e => .error e
        | .ok _ =>
          match checkDir cell "B" "input" with
          | .error e => .error e
          | .ok _ => checkDir cell "Y" "output"

/-- One iteration of the connection loop (lines 151-164).  Evaluation order of
`add_net_target(pconn[0], dname, portmap[pname])`: `pconn[0]` throws if the
connection is absent; then `portmap[pname]` throws if `portmap` itself is
`undefined` (unknown cell type); an absent entry of a present `portmap` is JS
`undefined`, which string-coerces to `"undefined"` in `d+'.'+p`. -/
def process_conn (portmap? : Option (List (String × String))) (dname : String)
    (nets : Nets) (pname pdir : String) (pconn? : Option (List Nat)) : Except Err Nets :=
  match pdir with
  | "input" =>
    match pconn? with
    | none => .error (.typeError "pconn[0]")
    | some pconn =>
      match portmap? with
      | none => .error (.typeError ("portmap[" ++ pname ++ "]"))
      | some portmap =>
        .ok (add_net_target nets pconn.head? dname ((portmap.lookup pname).getD "undefined"))
  | "output" =>
    match pconn? with
    | none => .error (.typeError "pconn[0]")
    | some pconn =>
      match portmap? with
      | none => .error (.typeError ("portmap[" ++ pname ++ "]"))
      | some portmap =>
        add_net_source nets pconn.head? dname ((portmap.lookup pname).getD "undefined")
  | d => .error (.jsThrow ("Invalid port direction: " ++ d))

/-- The device-type switch of lines 128-135: built-in gates are renamed, any
other type is used verbatim (the `throw` is commented out in the source). -/
def cellDevType (t : String) : String :=
  match t with
  | "$and" => "AND"
  | "$or" => "OR"
  | "$xor" => "XOR"
  | t => t

/-- The three built-in gate type tags. -/
def gateTypes : List String := ["$and", "$or", "$xor"]

/-- Whether a cell type is one of the built-in gates (the `case` labels of
line 137). -/
def isGate (t : String) : Bool := t == "$and" || t == "$or" || t == "$xor"

/-- The cell loop body of `yosys_to_simcir` (lines 118-166). -/
def process_cell (portmaps : Portmaps) (st : ConvSt) (cname : String) (cell : Cell) :
    Except Err ConvSt :=
  let portmap? := portmaps.lookup cell.type
  let dname := "dev" ++ toString st.n
  let n' := st.n + 1
  match (if isGate cell.type then gateAsserts cell else .ok ()) with
  | .error e => .error e
  | .ok _ =>
    match cell.port_directions.foldlM
        (fun nets pd => process_conn portmap? dname nets pd.1 pd.2 (cell.connections.lookup pd.1))
        st.nets with
    | .error e => .error e
    | .ok nets' =>
      .ok ⟨n', nets', st.devices ++ [⟨dname, cellDevType cell.type, 0, 0, cname, none⟩]⟩

/-- Iteration order of `for (const nnum in nets)` (line 167): integer-like
keys ascending; the `"undefined"` key (our `none`) last. -/
def netLe (a b : Option Nat × NetEntry) : Bool :=
  match a.1, b.1 with
  | some x, some y => decide (x ≤ y)
  | some _, none => true
  | none, _ => false

/-- The net table in JS `for..in` enumeration order. -/
def sortNets (nets : Nets) : Nets := isortLe netLe nets

/-- The connector-emission loop (lines 167-171): one connector per listener,
`to` taken from `net.source` without any definedness check. -/
def emit_connectors (nets : Nets) : List Connector :=
  (sortNets nets).flatMap fun kn => kn.2.targets.map fun t => ⟨t, kn.2.source⟩

/-- The per-module part of `yosys_to_simcir` up to (not including) connector
emission: ports then cells, from a fresh counter and net table. -/
def process_module_core (portmaps : Portmaps) (mod : Module) : Except Err ConvSt :=
  match mod.ports.foldlM (fun st pp => process_port st pp.1 pp.2) ⟨0, [], []⟩ with
  | .error e => .error e
  | .ok st => mod.cells.foldlM (fun st cc => process_cell portmaps st cc.1 cc.2) st

/-- The full per-module conversion (lines 86-171): `mout` starts as
`{width: 800, height: 500, devices: [], connectors: []}`. -/
def process_module (portmaps : Portmaps) (mod : Module) : Except Err ModuleOut :=
  match process_module_core portmaps mod with
  | .error e => .error e
  | .ok st => .ok ⟨800, 500, st.devices, emit_connectors st.nets⟩

/-- `yosys_to_simcir` (lines 64-174). -/
def yosys_to_simcir (data : Netlist) (portmaps : Portmaps) :
    Except Err (List (String × ModuleOut)) :=
  data.modules.foldlM (fun out nm =>
    match process_module portmaps nm.2 with
    | .error e => .error e
    | .ok mout => .ok (jsSet out nm.1 mout)) []

/-- `module_deps` (lines 22-33): one edge `[cell.type, name]` per cell whose
type is a known module. -/
def module_deps (data : Netlist) : List (String × String) :=
  data.modules.flatMap fun nm =>
    nm.2.cells.filterMap fun cc =>
      if (data.modules.lookup cc.2.type).isSome then some (cc.2.type, nm.1) else none

/-- The nodes mentioned by an edge list (the `topsort` package sorts exactly
these). -/
def nodesOf (edges : List (String × String)) : List String :=
  edges.flatMap fun e => [e.1, e.2]

/-- Modelled from the spec: the contract of the external `topsort` package
(spec section 4.2) — on an acyclic edge list it returns a duplicate-free
enumeration of exactly the nodes mentioned by the edges, in which every edge's
first component appears strictly before its second. -/
def IsTopsortOf (order : List String) (edges : List (String × String)) : Prop :=
  order.Nodup ∧ (∀ x ∈ order, x ∈ nodesOf edges) ∧ (∀ x ∈ nodesOf edges, x ∈ order) ∧
    ∀ e ∈ edges, order.indexOf e.1 < order.indexOf e.2

instance (order : List String) (edges : List (String × String)) :
    Decidable (IsTopsortOf order edges) := by
  unfold IsTopsortOf; exact inferInstance

/-- The sequence in which modules are printed (lines 222-233):
`toplevel = toporder.pop()`, the remaining `toporder`, then `toplevel` — i.e.
the topological order itself. -/
def emission_order (toporder : List String) : List String :=
  toporder.dropLast ++ toporder.getLast?.toList

/-- One printed record of the output document: a
`simcir.registerDevice(name, ...)` call or the final top-level diagram.  The
payload is `out[x]`, `none` when that property is absent (JS `undefined`). -/
inductive OutRecord where
  | register (name : String) (mout : Option ModuleOut)
  | toplevel (mout : Option ModuleOut)
deriving DecidableEq, Repr

/-- The registration name of a record, if it is one. -/
def regName : OutRecord → Option String
  | .register n _ => some n
  | .toplevel _ => none

/-- The emitted document (lines 222-234): one registration per remaining
`toporder` element, then the popped last element as the top-level diagram. -/
def emit_document (outs : List (String × ModuleOut)) (toporder : List String) :
    List OutRecord :=
  toporder.dropLast.map (fun x => .register x (outs.lookup x)) ++
    [.toplevel (toporder.getLast?.bind fun x => outs.lookup x)]

/-- `layout_circuit` (lines 176-210).  The external `dagre` layout is
abstracted as an arbitrary assignment `pos` of coordinates to device ids
(modelled from the spec, section 4.4: all coordinates are non-negative, hence
`Nat`); the graph's nodes are exactly the device ids.  Before the layout runs,
`conn.to.split('.')` (line 194) throws if a connector's `to` is `undefined`. -/
def layout_circuit (pos : String → Nat × Nat) (circ : ModuleOut) : Except Err ModuleOut :=
  if circ.connectors.all (fun c => c.cTo.isSome) then
    .ok { width := (circ.devices.map fun d => (pos d.id).1).foldl Nat.max 0 + 256,
          height := (circ.devices.map fun d => (pos d.id).2).foldl Nat.max 0 + 64,
          devices := circ.devices.map fun d => { d with x := (pos d.id).1, y := (pos d.id).2 },
          connectors := circ.connectors }
  else .error (.typeError "conn.to.split")

/-- `layout_circuits` (lines 212-216): lay out every module, aborting at the
first failure. -/
def layout_circuits (pos : String → Nat × Nat) :
    List (String × ModuleOut) → Except Err (List (String × ModuleOut))
  | [] => .ok []
  | nm :: rest =>
    match layout_circuit pos nm.2 with
    | .error e => .error e
    | .ok r =>
      match layout_circuits pos rest with
      | .error e => .error e
      | .ok rs => .ok ((nm.1, r) :: rs)

/-! ### Concrete inputs used by individual claims -/

/-- C1 input: one module whose single net (id 1) has a listener (its output
port) and no driver. -/
def C1data : Netlist := ⟨[("m", ⟨[("o", ⟨"output", [1]⟩)], []⟩)]⟩

/-- The portmaps `order_ports` computes for `C1data`. -/
def C1pms : Portmaps := gatesBase ++ [("m", [("o", "out0")])]

/-- C5 input: an `$and` cell whose connections reference a port `E` that is
absent from the `$and` port mapping `binmap`. -/
def C5data : Netlist := ⟨[("m5", ⟨[],
  [("c", ⟨"$and", [("A", "input"), ("B", "input"), ("Y", "output"), ("E", "input")],
    [("A", [2]), ("B", [3]), ("Y", [4]), ("E", [5])]⟩)]⟩)]⟩

/-- The portmaps `order_ports` computes for `C5data`. -/
def C5pms : Portmaps := gatesBase ++ [("m5", [])]

/-- C2 input: a cell of unknown type `"blackbox"` that has a connection. -/
def C2data : Netlist :=
  ⟨[("m2", ⟨[], [("c", ⟨"blackbox", [("A", "input")], [("A", [2])]⟩)]⟩)]⟩

/-- The portmaps `order_ports` computes for `C2data`. -/
def C2pms : Portmaps := gatesBase ++ [("m2", [])]

/-- C8 input: module `a` instantiates module `b` with a 2-bit-wide
connection. -/
def C8data : Netlist := ⟨[("b", ⟨[("i", ⟨"input", [1]⟩)], []⟩),
  ("a", ⟨[], [("u", ⟨"b", [("i", "input")], [("i", [2, 3])]⟩)]⟩)]⟩

/-- The portmaps `order_ports` computes for `C8data`. -/
def C8pms : Portmaps := gatesBase ++ [("b", [("i", "in0")]), ("a", [])]

/-- The converted modules of `C8data`. -/
def C8res : List (String × ModuleOut) :=
  [("b", ⟨800, 500, [⟨"dev0", "In", 0, 0, "i", some 1⟩], []⟩),
   ("a", ⟨800, 500, [⟨"dev0", "b", 0, 0, "u", none⟩], [⟨"dev0.in0", none⟩]⟩)]

/-- C9 input: `a` instantiates `b`; module `c` neither instantiates nor is
instantiated by any other module. -/
def C9data : Netlist := ⟨[("a", ⟨[], [("u", ⟨"b", [], []⟩)]⟩),
  ("b", ⟨[], []⟩), ("c", ⟨[], []⟩)]⟩

/-- The portmaps `order_ports` computes for `C9data`. -/
def C9pms : Portmaps := gatesBase ++ [("a", []), ("b", []), ("c", [])]

/-- The converted modules of `C9data`: note `c` IS converted. -/
def C9outs : List (String × ModuleOut) :=
  [("a", ⟨800, 500, [⟨"dev0", "b", 0, 0, "u", none⟩], []⟩),
   ("b", ⟨800, 500, [], []⟩), ("c", ⟨800, 500, [], []⟩)]

/-- The (unique) topological order `topsort` returns for `C9data`'s
dependency edges `[("b","a")]` — `c` appears in no edge, hence nowhere. -/
def C9order : List String := ["b", "a"]

/-- C3 witness input: module `a` instantiates module `b`. -/
def C3data : Netlist := ⟨[("b", ⟨[], []⟩), ("a", ⟨[], [("u", ⟨"b", [], []⟩)]⟩)]⟩

/-- C6 witness input: one AND cell wired to input ports `A`, `B` and output
port `Y` (the end-to-end example of spec section 8). -/
def C6mod : Module :=
  ⟨[("A", ⟨"input", [2]⟩), ("B", ⟨"input", [3]⟩), ("Y", ⟨"output", [4]⟩)],
   [("g", ⟨"$and", [("A", "input"), ("B", "input"), ("Y", "output")],
     [("A", [2]), ("B", [3]), ("Y", [4])]⟩)]⟩

/-- Portmaps for `C6mod`'s module. -/
def C6pms : Portmaps := gatesBase ++ [("m", binmap)]

/-- The conversion state after all of `C6mod`'s devices are registered. -/
def C6st : ConvSt :=
  ⟨4, [(some 2, ⟨some "dev0.out0", ["dev3.in0"]⟩),
       (some 3, ⟨some "dev1.out0", ["dev3.in1"]⟩),
       (some 4, ⟨some "dev3.out0", ["dev2.in0"]⟩)],
   [⟨"dev0", "In", 0, 0, "A", some 1⟩, ⟨"dev1", "In", 0, 0, "B", some 2⟩,
    ⟨"dev2", "Out", 0, 0, "Y", some 3⟩, ⟨"dev3", "AND", 0, 0, "g", none⟩]⟩

/-- C7 witness input: inputs declared at bit indices [3, 1, 2] plus one
output (the port-ordering example of spec section 8). -/
def C7mod : Module := ⟨[("p3", ⟨"input", [3]⟩), ("p1", ⟨"input", [1]⟩),
  ("p2", ⟨"input", [2]⟩), ("q", ⟨"output", [4]⟩)], []⟩

/-- The `ins` array `order_ports` builds for `C7mod`. -/
def C7ins : List PData := [⟨"p3", some 3⟩, ⟨"p1", some 1⟩, ⟨"p2", some 2⟩]

/-- The `outs` array `order_ports` builds for `C7mod`. -/
def C7outs : List PData := [⟨"q", some 4⟩]

/-- The portmap `order_ports` computes for `C7mod`. -/
def C7pm : List (String × String) :=
  [("p1", "in0"), ("p2", "in1"), ("p3", "in2"), ("q", "out0")]

/-- A one-module netlist around `C7mod`. -/
def C7data : Netlist := ⟨[("m7", C7mod)]⟩

/-! ### Helper lemmas about the embedding primitives -/

theorem lookup_jsSet_self {κ β : Type} [DecidableEq κ] [BEq κ] [LawfulBEq κ]
    (m : List (κ × β)) (k : κ) (v : β) : (jsSet m k v).lookup k = some v := by
  induction m with
  | nil => simp [jsSet]
  | cons kv rest ih =>
    obtain ⟨k₀, v₀⟩ := kv
    by_cases h : k₀ = k
    · subst h; simp [jsSet]
    · have hb : (k == k₀) = false := beq_eq_false_iff_ne.2 fun hh => h hh.symm
      simp [jsSet, h, List.lookup_cons, hb, ih]

theorem lookup_jsSet_ne {κ β : Type} [DecidableEq κ] [BEq κ] [LawfulBEq κ]
    (m : List (κ × β)) (k k' : κ) (v : β) (hne : k' ≠ k) :
    (jsSet m k v).lookup k' = m.lookup k' := by
  induction m with
  | nil => simp [jsSet, List.lookup_cons, beq_eq_false_iff_ne.2 hne]
  | cons kv rest ih =>
    obtain ⟨k₀, v₀⟩ := kv
    by_cases h : k₀ = k
    · subst h
      simp [jsSet, List.lookup_cons, beq_eq_false_iff_ne.2 hne]
    · simp only [jsSet, if_neg h]
      by_cases h0 : k' = k₀
      · subst h0; simp [List.lookup_cons]
      · simp [List.lookup_cons, beq_eq_false_iff_ne.2 h0, ih]

theorem jsSet_of_not_mem {κ β : Type} [DecidableEq κ]
    (m : List (κ × β)) (k : κ) (v : β) (h : k ∉ m.map Prod.fst) :
    jsSet m k v = m ++ [(k, v)] := by
  induction m with
  | nil => rfl
  | cons kv rest ih =>
    simp only [List.map_cons, List.mem_cons, not_or] at h
    simp [jsSet, Ne.symm h.1, ih h.2]

theorem jsObj_eq_self {κ β : Type} [DecidableEq κ]
    (l : List (κ × β)) (h : (l.map Prod.fst).Nodup) : jsObj l = l := by
  suffices H : ∀ (l acc : List (κ × β)), ((acc ++ l).map Prod.fst).Nodup →
      l.foldl (fun m kv => jsSet m kv.1 kv.2) acc = acc ++ l by
    simpa using H l [] (by simpa using h)
  intro l
  induction l with
  | nil => intro acc _; simp
  | cons kv rest ih =>
    intro acc hacc
    have hk : kv.1 ∉ acc.map Prod.fst := by
      intro hmem
      rcases List.mem_map.1 hmem with ⟨p, hp, hfst⟩
      have : ((acc ++ kv :: rest).map Prod.fst).Nodup := hacc
      rw [List.map_append] at this
      exact (List.disjoint_of_nodup_append this) (List.mem_map_of_mem _ hp)
        (by simp [hfst])
    have step : jsSet acc kv.1 kv.2 = acc ++ [kv] := by
      rw [jsSet_of_not_mem _ _ _ hk]
    have : (((acc ++ [kv]) ++ rest).map Prod.fst).Nodup := by
      simpa using hacc
    calc (kv :: rest).foldl (fun m p => jsSet m p.1 p.2) acc
        = rest.foldl (fun m p => jsSet m p.1 p.2) (acc ++ [kv]) := by
          simp [List.foldl_cons, step]
      _ = (acc ++ [kv]) ++ rest := ih (acc ++ [kv]) this
      _ = acc ++ kv :: rest := by simp

theorem get_net_jsSet (nets : Nets) (k : Option Nat) (e : NetEntry) :
    get_net (jsSet nets k e) k = e := by
  unfold get_net
  rw [lookup_jsSet_self]
  rfl

theorem insertLe_perm {α : Type} (le : α → α → Bool) (x : α) (l : List α) :
    (insertLe le x l).Perm (x :: l) := by
  induction l with
  | nil => exact List.Perm.refl _
  | cons y ys ih =>
    by_cases h : le x y
    · simp [insertLe, h]
    · simp only [insertLe, if_neg h]
      exact ((ih.cons y).trans (List.Perm.swap x y ys))

theorem isortLe_perm {α : Type} (le : α → α → Bool) (l : List α) :
    (isortLe le l).Perm l := by
  induction l with
  | nil => exact List.Perm.refl _
  | cons x xs ih =>
    exact (insertLe_perm le x (isortLe le xs)).trans (ih.cons x)

theorem foldlM_ok_forall {σ α : Type} {f : σ → α → Except Err σ} {P : α → Prop}
    (hP : ∀ s a s', f s a = .ok s' → P a) :
    ∀ (l : List α) (s s' : σ), l.foldlM f s = .ok s' → ∀ a ∈ l, P a := by
  intro l
  induction l with
  | nil => simp
  | cons x xs ih =>
    intro s s' hfold a ha
    rw [List.foldlM_cons] at hfold
    cases hx : f s x with
    | error e => rw [hx] at hfold; simp [Bind.bind, Except.bind] at hfold
    | ok s1 =>
      rw [hx] at hfold
      simp only [Bind.bind, Except.bind] at hfold
      rcases List.mem_cons.1 ha with rfl | hmem
      · exact hP s a s1 hx
      · exact ih s1 s' hfold a hmem

theorem flatMap_filter_of_nil {α β : Type} (l : List α) (f : α → List β)
    (p : α → Bool) (h : ∀ x ∈ l, p x = false → f x = []) :
    l.flatMap f = (l.filter p).flatMap f := by
  induction l with
  | nil => rfl
  | cons x xs ih =>
    have ihx := ih fun y hy => h y (List.mem_cons_of_mem _ hy)
    cases hp : p x with
    | false => simp [List.filter_cons, hp, h x (List.mem_cons_self x xs) hp, ihx]
    | true => simp [List.filter_cons, hp, ihx]

theorem length_flatMap' {α β : Type} (l : List α) (f : α → List β) :
    (l.flatMap f).length = (l.map fun x => (f x).length).sum := by
  rw [List.flatMap_def, List.length_flatten, List.map_map]
  rfl

theorem foldl_max_zero (l : List Nat) : l.foldl Nat.max 0 = l.max?.getD 0 := by
  cases l with
  | nil => rfl
  | cons x xs =>
    rw [List.max?_cons', List.foldl_cons]
    have : Nat.max 0 x = x := Nat.zero_max x
    rw [this]
    rfl

theorem cellDevType_eq_self {t : String} (h : t ∉ gateTypes) : cellDevType t = t := by
  simp only [gateTypes, List.mem_cons, List.not_mem_nil, or_false, not_or] at h
  unfold cellDevType
  split
  · exact absurd rfl h.1
  · exact absurd rfl h.2.1
  · exact absurd rfl h.2.2
  · rfl

theorem isGate_eq_false {t : String} (h : t ∉ gateTypes) : isGate t = false := by
  simp only [gateTypes, List.mem_cons, List.not_mem_nil, or_false, not_or] at h
  simp [isGate, h.1, h.2.1, h.2.2]

theorem process_conn_none_err (dname : String) (nets : Nets) (pname pdir : String)
    (pconn? : Option (List Nat)) :
    ∃ e, process_conn none dname nets pname pdir pconn? = .error e := by
  unfold process_conn
  split
  · cases pconn? <;> exact ⟨_, rfl⟩
  · cases pconn? <;> exact ⟨_, rfl⟩
  · exact ⟨_, rfl⟩

theorem layout_ok_props (pos : String → Nat × Nat) (circ r : ModuleOut)
    (h : layout_circuit pos circ = .ok r) :
    r.width = (r.devices.map Device.x).max?.getD 0 + 256 ∧
    r.height = (r.devices.map Device.y).max?.getD 0 + 64 ∧
    256 ≤ r.width ∧ 64 ≤ r.height ∧
    (circ.devices = [] → r.width = 256 ∧ r.height = 64) := by
  unfold layout_circuit at h
  split at h
  swap
  · exact absurd h (by simp)
  cases h
  have hx : ((circ.devices.map fun d =>
      ({ d with x := (pos d.id).1, y := (pos d.id).2 } : Device)).map Device.x) =
      circ.devices.map fun d => (pos d.id).1 := by
    rw [List.map_map]; rfl
  have hy : ((circ.devices.map fun d =>
      ({ d with x := (pos d.id).1, y := (pos d.id).2 } : Device)).map Device.y) =
      circ.devices.map fun d => (pos d.id).2 := by
    rw [List.map_map]; rfl
  refine ⟨?_, ?_, ?_, ?_, ?_⟩
  · simp only [hx]
    rw [foldl_max_zero]
  · simp only [hy]
    rw [foldl_max_zero]
  · exact Nat.le_add_left _ _
  · exact Nat.le_add_left _ _
  · intro hdev
    simp [hdev]

theorem layout_circuits_ok_mem (pos : String → Nat × Nat) :
    ∀ (circs outl : List (String × ModuleOut)), layout_circuits pos circs = .ok outl →
      ∀ nm ∈ outl, ∃ circ, layout_circuit pos circ = .ok nm.2 := by
  intro circs
  induction circs with
  | nil => intro outl h nm hnm; cases h; simp at hnm
  | cons c rest ih =>
    intro outl h nm hnm
    unfold layout_circuits at h
    cases hc : layout_circuit pos c.2 with
    | error e => rw [hc] at h; exact absurd h (by simp)
    | ok r =>
      rw [hc] at h
      cases hrest : layout_circuits pos rest with
      | error e => rw [hrest] at h; exact absurd h (by simp)
      | ok rs =>
        rw [hrest] at h
        cases h
        rcases List.mem_cons.1 hnm with rfl | hmem
        · exact ⟨c.2, hc⟩
        · exact ih rs hrest nm hmem

/-! ### Claim theorems -/

/-- C1 (code bug in the source): the connector-emission loop has no
`UnresolvedNet` guard.  On a module whose net 1 has a listener (the output
port) and no driver, the conversion succeeds and silently emits a connector
whose `to` endpoint is JS `undefined` (`none`), contradicting the claim that
it aborts with an `UnresolvedNet` error. -/
theorem C1_undriven_net_silent :
    order_ports C1data = .ok C1pms ∧
    yosys_to_simcir C1data C1pms =
      .ok [("m", ⟨800, 500, [⟨"dev0", "Out", 0, 0, "o", some 1⟩],
        [⟨"dev0.in0", none⟩]⟩)] := by
  constructor <;> rfl

/-- C5 (code bug in the source): a cell referencing a port name absent from
its type's port mapping does NOT fail with a `MissingPortMapping` error.  The
`$and` cell of `C5data` references port `E`, absent from `binmap`; the
conversion succeeds and the JS string coercion of `undefined` silently
produces the listener endpoint `"dev0.undefined"`. -/
theorem C5_missing_portmap_silent :
    binmap.lookup "E" = none ∧
    order_ports C5data = .ok C5pms ∧
    yosys_to_simcir C5data C5pms =
      .ok [("m5", ⟨800, 500, [⟨"dev0", "AND", 0, 0, "c", none⟩],
        [⟨"dev0.in0", none⟩, ⟨"dev0.in1", none⟩, ⟨"dev0.undefined", none⟩]⟩)] := by
  refine ⟨rfl, rfl, rfl⟩

/-- C2 counterexample: a cell of unknown type `"blackbox"` (not a module
name, not a gate) whose connections are non-empty makes the conversion FAIL
(the JS code throws a TypeError reading `portmap[pname]` of `undefined`),
refuting "the conversion succeeds without error regardless of the cell's
connections". -/
theorem C2_counterexample :
    C2pms.lookup "blackbox" = none ∧ "blackbox" ∉ gateTypes ∧
    order_ports C2data = .ok C2pms ∧
    yosys_to_simcir C2data C2pms = .error (.typeError "portmap[A]") := by
  refine ⟨rfl, by decide, rfl, rfl⟩

/-- C2 amended: a cell whose type is neither in the portmaps table nor a
built-in gate is converted to a pass-through device carrying the type string
verbatim IF the cell has no connection entries; if it has any
`port_directions` entry the conversion fails (TypeError from the undefined
port mapping). -/
theorem C2_amended (pms : Portmaps) (st : ConvSt) (cname : String) (cell : Cell)
    (hlook : pms.lookup cell.type = none) (hgate : cell.type ∉ gateTypes) :
    (cell.port_directions = [] →
      process_cell pms st cname cell =
        .ok ⟨st.n + 1, st.nets,
          st.devices ++ [⟨"dev" ++ toString st.n, cell.type, 0, 0, cname, none⟩]⟩) ∧
    (cell.port_directions ≠ [] → ∃ e, process_cell pms st cname cell = .error e) := by
  constructor
  · intro hpd
    simp [process_cell, isGate_eq_false hgate, hpd, cellDevType_eq_self hgate,
      pure, Except.pure]
  · intro hpd
    rcases hpd' : cell.port_directions with _ | ⟨pd, rest⟩
    · exact absurd hpd' hpd
    obtain ⟨e, he⟩ := process_conn_none_err ("dev" ++ toString st.n) st.nets pd.1 pd.2
      (cell.connections.lookup pd.1)
    refine ⟨e, ?_⟩
    simp [process_cell, isGate_eq_false hgate, hpd', List.foldlM_cons, hlook, he,
      Bind.bind, Except.bind]

/-- C2 amended, witness: a connection-free cell of unknown type "blackbox"
passes through verbatim. -/
theorem C2_amended_witness :
    process_cell [] ⟨0, [], []⟩ "c" ⟨"blackbox", [], []⟩ =
      .ok ⟨1, [], [⟨"dev0", "blackbox", 0, 0, "c", none⟩]⟩ :=
  (C2_amended [] ⟨0, [], []⟩ "c" ⟨"blackbox", [], []⟩ rfl (by decide)).1 rfl

/-- C4: `add_net_source` asserts `net.source === undefined`, so registering a
driver on a net that already has one fails (the `MultipleDrivers` error of
the spec), and a successful registration happens only on a previously
driver-less net and leaves exactly that one driver in the table; moreover a
whole-module conversion with two input ports on the same net id fails this
way, whatever the portmaps. -/
theorem C4_multiple_drivers :
    (∀ (nets : Nets) (k : Option Nat) (d p : String),
      (get_net nets k).source.isSome = true →
      add_net_source nets k d p = .error (.assertFail "net.source === undefined")) ∧
    (∀ (nets : Nets) (k : Option Nat) (d p : String) (nets' : Nets),
      add_net_source nets k d p = .ok nets' →
      (get_net nets k).source = none ∧
      (get_net nets' k).source = some (d ++ "." ++ p)) ∧
    (∀ pms : Portmaps,
      process_module pms ⟨[("a", ⟨"input", [1]⟩), ("b", ⟨"input", [1]⟩)], []⟩ =
        .error (.assertFail "net.source === undefined")) := by
  refine ⟨?_, ?_, ?_⟩
  · intro nets k d p h
    cases hs : (get_net nets k).source with
    | none => rw [hs] at h; simp at h
    | some s => simp [add_net_source, hs]
  · intro nets k d p nets' h
    cases hs : (get_net nets k).source with
    | some s => simp [add_net_source, hs] at h
    | none =>
      simp only [add_net_source, hs, Except.ok.injEq] at h
      subst h
      exact ⟨rfl, by rw [get_net_jsSet]⟩
  · intro pms
    rfl

/-- C4 witness: concrete second registration on net 1 fails. -/
theorem C4_multiple_drivers_witness :
    add_net_source [(some 1, ⟨some "dev0.out0", []⟩)] (some 1) "dev1" "out0" =
      .error (.assertFail "net.source === undefined") :=
  C4_multiple_drivers.1 [(some 1, ⟨some "dev0.out0", []⟩)] (some 1) "dev1" "out0" rfl

/-- C10: for any coordinates the (abstracted) dagre layout produces, a laid
out module diagram has width = (maximum device x, or 0 when there are no
devices) + 256 and height = (maximum device y, or 0) + 64, hence width ≥ 256
and height ≥ 64, and a module with zero devices is laid out without error
with width exactly 256 and height exactly 64; `layout_circuits` gives this
for every module of the document. -/
theorem C10_layout :
    (∀ (pos : String → Nat × Nat) (circ r : ModuleOut),
      layout_circuit pos circ = .ok r →
      r.width = (r.devices.map Device.x).max?.getD 0 + 256 ∧
      r.height = (r.devices.map Device.y).max?.getD 0 + 64 ∧
      256 ≤ r.width ∧ 64 ≤ r.height ∧
      (circ.devices = [] → r.width = 256 ∧ r.height = 64)) ∧
    (∀ (pos : String → Nat × Nat) (circ : ModuleOut),
      circ.devices = [] → circ.connectors = [] →
      layout_circuit pos circ = .ok ⟨256, 64, [], []⟩) ∧
    (∀ (pos : String → Nat × Nat) (circs outl : List (String × ModuleOut)),
      layout_circuits pos circs = .ok outl →
      ∀ nm ∈ outl,
        nm.2.width = (nm.2.devices.map Device.x).max?.getD 0 + 256 ∧
        nm.2.height = (nm.2.devices.map Device.y).max?.getD 0 + 64 ∧
        256 ≤ nm.2.width ∧ 64 ≤ nm.2.height) := by
  refine ⟨layout_ok_props, ?_, ?_⟩
  · intro pos circ hdev hconn
    unfold layout_circuit
    rw [hconn, hdev]
    rfl
  · intro pos circs outl h nm hnm
    obtain ⟨circ, hc⟩ := layout_circuits_ok_mem pos circs outl h nm hnm
    obtain ⟨h1, h2, h3, h4, _⟩ := layout_ok_props pos circ nm.2 hc
    exact ⟨h1, h2, h3, h4⟩

theorem lookup_isSome_mem {κ β : Type} [BEq κ] [LawfulBEq κ]
    (l : List (κ × β)) (k : κ) (h : (l.lookup k).isSome) : k ∈ l.map Prod.fst := by
  induction l with
  | nil => simp at h
  | cons kv rest ih =>
    obtain ⟨k₀, v₀⟩ := kv
    rw [List.lookup_cons] at h
    cases hb : k == k₀ with
    | true => simp [eq_of_beq hb]
    | false => rw [hb] at h; exact List.mem_cons_of_mem _ (ih h)

theorem module_deps_mem_names (data : Netlist) (e : String × String)
    (he : e ∈ module_deps data) :
    e.1 ∈ data.modules.map Prod.fst ∧ e.2 ∈ data.modules.map Prod.fst := by
  unfold module_deps at he
  rcases List.mem_flatMap.1 he with ⟨nm, hnm, hmem⟩
  rcases List.mem_filterMap.1 hmem with ⟨cc, _, hif⟩
  by_cases hs : (data.modules.lookup cc.2.type).isSome
  · rw [if_pos hs] at hif
    cases hif
    exact ⟨lookup_isSome_mem _ _ hs, List.mem_map_of_mem _ hnm⟩
  · rw [if_neg hs] at hif
    cases hif

theorem mem_nodesOf_of_edge {edges : List (String × String)} {e : String × String}
    (he : e ∈ edges) : e.1 ∈ nodesOf edges ∧ e.2 ∈ nodesOf edges :=
  ⟨List.mem_flatMap_of_mem he (by simp), List.mem_flatMap_of_mem he (by simp)⟩

theorem emission_order_eq {l : List String} (h : l ≠ []) : emission_order l = l := by
  unfold emission_order
  rw [List.getLast?_eq_getLast_of_ne_nil h]
  simpa using List.dropLast_append_getLast h

theorem topsort_getLast_not_used {order : List String} {edges : List (String × String)}
    (ht : IsTopsortOf order edges) (hne : order ≠ []) :
    ∀ e ∈ edges, e.1 ≠ order.getLast hne := by
  intro e he heq
  have hlt := ht.2.2.2 e he
  have h2mem : e.2 ∈ order := ht.2.2.1 _ (mem_nodesOf_of_edge he).2
  have h2lt : order.indexOf e.2 < order.length := List.indexOf_lt_length.2 h2mem
  have hlenpos : 0 < order.length := List.length_pos.2 hne
  have hidx : order.indexOf e.1 = order.length - 1 := by
    rw [heq, List.getLast_eq_getElem]
    exact List.indexOf_getElem ht.1 _ _
  omega

/-- C3: assuming the external `topsort` package meets its contract
(`IsTopsortOf`), the emitted module sequence (everything left after `pop`,
then the popped last element) puts every used module strictly before its
user, and — when exactly one module is instantiated by no other — ends with
that root module. -/
theorem C3_toporder (data : Netlist) (order : List String) (root : String)
    (ht : IsTopsortOf order (module_deps data)) (hne : order ≠ [])
    (huniq : ∀ m ∈ data.modules.map Prod.fst,
      (∀ e ∈ module_deps data, e.1 ≠ m) → m = root) :
    (∀ e ∈ module_deps data,
      (emission_order order).indexOf e.1 < (emission_order order).indexOf e.2) ∧
    (emission_order order).getLast? = some root := by
  rw [emission_order_eq hne]
  refine ⟨ht.2.2.2, ?_⟩
  have hlast_mem : order.getLast hne ∈ order := List.getLast_mem hne
  have hnode := ht.2.1 _ hlast_mem
  have hmod : order.getLast hne ∈ data.modules.map Prod.fst := by
    rcases List.mem_flatMap.1 hnode with ⟨e, he, hmm⟩
    have hnames := module_deps_mem_names data e he
    have hmm' : order.getLast hne = e.1 ∨ order.getLast hne = e.2 := by
      simpa using hmm
    rcases hmm' with h1 | h1
    · rw [h1]; exact hnames.1
    · rw [h1]; exact hnames.2
  have hroot := huniq _ hmod (fun e he => (topsort_getLast_not_used ht hne e he).symm ∘ Eq.symm)
  rw [List.getLast?_eq_getLast_of_ne_nil hne, hroot]

/-- C3 witness: module `a` instantiates module `b`; the emitted order is
`[b, a]`: `b` strictly before `a`, the root `a` last. -/
theorem C3_toporder_witness :
    module_deps C3data = [("b", "a")] ∧
    IsTopsortOf ["b", "a"] (module_deps C3data) ∧
    (emission_order ["b", "a"]).indexOf "b" < (emission_order ["b", "a"]).indexOf "a" ∧
    (emission_order ["b", "a"]).getLast? = some "a" := by
  have h := C3_toporder C3data ["b", "a"] "a" (by decide) (by decide) (by decide)
  exact ⟨rfl, by decide, h.1 ("b", "a") (by decide), h.2⟩

/-- C9 counterexample: module `c` of `C9data` neither instantiates nor is
instantiated by any module; it is converted, but the emitted document (built
from the topological order of the dependency edges, in which `c` does not
occur) contains no record for it — refuting "no module of the input is
omitted from the output". -/
theorem C9_counterexample :
    order_ports C9data = .ok C9pms ∧
    yosys_to_simcir C9data C9pms = .ok C9outs ∧
    module_deps C9data = [("b", "a")] ∧
    IsTopsortOf C9order (module_deps C9data) ∧
    "c" ∈ C9data.modules.map Prod.fst ∧
    emit_document C9outs C9order =
      [.register "b" (some ⟨800, 500, [], []⟩),
       .toplevel (some ⟨800, 500, [⟨"dev0", "b", 0, 0, "u", none⟩], []⟩)] ∧
    ∀ r ∈ emit_document C9outs C9order, regName r ≠ some "c" := by
  refine ⟨rfl, rfl, rfl, by decide, by decide, rfl, by decide⟩

/-- C9 amended: the emitted document consists of exactly one
named-registration record per element of the dependency topological order
except its last, in that order, followed by the last (root) element's
diagram; a module that appears in no dependency edge occurs in neither part
(it is omitted entirely). -/
theorem C9_amended (data : Netlist) (order : List String)
    (outs : List (String × ModuleOut))
    (ht : IsTopsortOf order (module_deps data)) :
    (emit_document outs order).filterMap regName = order.dropLast ∧
    (emit_document outs order).getLast? =
      some (.toplevel (order.getLast?.bind fun x => outs.lookup x)) ∧
    ∀ m, m ∉ nodesOf (module_deps data) →
      m ∉ order.dropLast ∧ order.getLast? ≠ some m := by
  refine ⟨?_, ?_, ?_⟩
  · unfold emit_document
    rw [List.filterMap_append]
    have h1 : (order.dropLast.map fun x => OutRecord.register x (outs.lookup x)).filterMap
        regName = order.dropLast := by
      rw [List.filterMap_map]
      have : (regName ∘ fun x => OutRecord.register x (outs.lookup x)) =
          (some ∘ fun x => x) := by
        funext x; rfl
      rw [this, List.filterMap_eq_map]
      exact List.map_id _
    rw [h1]
    simp [regName]
  · unfold emit_document
    exact List.getLast?_concat _
  · intro m hm
    have hnotin : m ∉ order := fun hmem => hm (ht.2.1 m hmem)
    refine ⟨fun hmem => hnotin (List.dropLast_subset order hmem), fun hlast => ?_⟩
    rcases List.mem_getLast?_eq_getLast (l := order) (x := m) hlast with ⟨hne, hx⟩
    exact hnotin (hx ▸ List.getLast_mem hne)

/-- C9 amended witness: for `C9data`, the registration names are exactly
`["b"]` and the last record is `a`'s diagram; `c` (in no dependency edge)
occurs nowhere. -/
theorem C9_amended_witness :
    (emit_document C9outs C9order).filterMap regName = ["b"] ∧
    (emit_document C9outs C9order).getLast? =
      some (.toplevel (C9order.getLast?.bind fun x => C9outs.lookup x)) ∧
    "c" ∉ C9order.dropLast ∧ C9order.getLast? ≠ some "c" := by
  have h := C9_amended C9data C9order C9outs (by decide)
  exact ⟨h.1, h.2.1, h.2.2 "c" (by decide)⟩

theorem process_port_ok_len {st : ConvSt} {pname : String} {port : Port} {st' : ConvSt}
    (h : process_port st pname port = .ok st') : port.bits.length = 1 := by
  by_cases hb : port.bits.length = 1
  · exact hb
  · unfold process_port at h
    rw [if_neg hb] at h
    simp at h

theorem checkConnLen1_ok {cell : Cell} {pn : String} {u : Unit}
    (h : checkConnLen1 cell pn = .ok u) :
    ∃ l, cell.connections.lookup pn = some l ∧ l.length = 1 := by
  unfold checkConnLen1 at h
  cases hl : cell.connections.lookup pn with
  | none => rw [hl] at h; simp at h
  | some l =>
    rw [hl] at h
    by_cases hlen : l.length = 1
    · exact ⟨l, rfl, hlen⟩
    · simp [hlen] at h

theorem gateAsserts_ok {cell : Cell} (h : gateAsserts cell = .ok ()) :
    (∃ l, cell.connections.lookup "A" = some l ∧ l.length = 1) ∧
    (∃ l, cell.connections.lookup "B" = some l ∧ l.length = 1) ∧
    (∃ l, cell.connections.lookup "Y" = some l ∧ l.length = 1) := by
  unfold gateAsserts at h
  cases hA : checkConnLen1 cell "A" with
  | error e => rw [hA] at h; simp at h
  | ok uA =>
    rw [hA] at h
    cases hB : checkConnLen1 cell "B" with
    | error e => rw [hB] at h; simp at h
    | ok uB =>
      rw [hB] at h
      cases hY : checkConnLen1 cell "Y" with
      | error e => rw [hY] at h; simp at h
      | ok uY =>
        exact ⟨checkConnLen1_ok hA, checkConnLen1_ok hB, checkConnLen1_ok hY⟩

theorem process_cell_ok_gateAsserts {pms : Portmaps} {st : ConvSt} {cname : String}
    {cell : Cell} {st' : ConvSt} (h : process_cell pms st cname cell = .ok st')
    (hg : isGate cell.type = true) : gateAsserts cell = .ok () := by
  unfold process_cell at h
  rw [hg] at h
  cases hga : gateAsserts cell with
  | error e => rw [hga] at h; simp at h
  | ok u => cases u; rfl

/-- C6: when a module's devices have all been registered (state `st`), the
module output is exactly `{width: 800, height: 500, devices, connectors}`
with one connector per (net, listener) pair — `from` the listener endpoint,
`to` that net's driver endpoint (`net.source`); nets with no listeners
contribute no connector, and the connector count is the total listener
count of the net table. -/
theorem C6_connectors (pms : Portmaps) (mod : Module) (st : ConvSt)
    (h : process_module_core pms mod = .ok st) :
    process_module pms mod = .ok ⟨800, 500, st.devices, emit_connectors st.nets⟩ ∧
    emit_connectors st.nets =
      ((sortNets st.nets).filter fun kn => !kn.2.targets.isEmpty).flatMap
        (fun kn => kn.2.targets.map fun t => ⟨t, kn.2.source⟩) ∧
    (emit_connectors st.nets).length =
      (st.nets.map fun kn => kn.2.targets.length).sum ∧
    ∀ c ∈ emit_connectors st.nets, ∃ kn ∈ st.nets,
      c.cFrom ∈ kn.2.targets ∧ c.cTo = kn.2.source := by
  refine ⟨?_, ?_, ?_, ?_⟩
  · unfold process_module
    rw [h]
  · unfold emit_connectors
    refine flatMap_filter_of_nil _ _ _ ?_
    intro kn _ hng
    have : kn.2.targets = [] := by
      simpa [List.isEmpty_iff] using hng
    simp [this]
  · unfold emit_connectors
    rw [length_flatMap']
    have hperm := (isortLe_perm netLe st.nets).map fun kn => kn.2.targets.length
    have hsum := hperm.sum_eq
    simpa [sortNets, List.length_map] using hsum
  · intro c hc
    unfold emit_connectors at hc
    rcases List.mem_flatMap.1 hc with ⟨kn, hkn, hcm⟩
    rcases List.mem_map.1 hcm with ⟨t, ht, rfl⟩
    exact ⟨kn, (isortLe_perm netLe st.nets).mem_iff.1 hkn, ht, rfl⟩

/-- C6 witness: the AND end-to-end example (spec section 8) — 2 In devices,
1 Out device, 1 AND device and exactly 3 connectors, one per listener. -/
theorem C6_connectors_witness :
    process_module_core C6pms C6mod = .ok C6st ∧
    process_module C6pms C6mod = .ok ⟨800, 500, C6st.devices, emit_connectors C6st.nets⟩ ∧
    emit_connectors C6st.nets =
      [⟨"dev3.in0", some "dev0.out0"⟩, ⟨"dev3.in1", some "dev1.out0"⟩,
       ⟨"dev2.in0", some "dev3.out0"⟩] ∧
    (emit_connectors C6st.nets).length =
      (C6st.nets.map fun kn => kn.2.targets.length).sum := by
  have h := C6_connectors C6pms C6mod C6st rfl
  exact ⟨rfl, h.1, rfl, h.2.2.1⟩

/-- C8 counterexample: module `a` instantiates module `b` with the 2-bit
connection `i: [2, 3]`; the conversion succeeds (silently using only net 2),
refuting "the conversion fails with an InvalidPortWidth error whenever a bit
list is wider than one ... for every cell connection". -/
theorem C8_counterexample :
    order_ports C8data = .ok C8pms ∧
    yosys_to_simcir C8data C8pms = .ok C8res ∧
    ((C8data.modules.lookup "a").bind fun m => m.cells.lookup "u").map Cell.connections
      = some [("i", [2, 3])] := by
  refine ⟨rfl, rfl, rfl⟩

/-- C8 amended: a successful conversion guarantees that every module port's
bit list has length exactly 1 (the line-104 assertion) and that every
`$and`/`$or`/`$xor` cell's `A`/`B`/`Y` connections each have length exactly 1
(the lines-138-140 assertions) — equivalently, the conversion fails whenever
one of these is wider; connections of other cell types are not checked and
only their first net id is used. -/
theorem C8_amended (data : Netlist) (pms : Portmaps) (res : List (String × ModuleOut))
    (h : yosys_to_simcir data pms = .ok res) :
    ∀ nm ∈ data.modules,
      (∀ pp ∈ nm.2.ports, pp.2.bits.length = 1) ∧
      (∀ cc ∈ nm.2.cells, isGate cc.2.type = true →
        (∃ l, cc.2.connections.lookup "A" = some l ∧ l.length = 1) ∧
        (∃ l, cc.2.connections.lookup "B" = some l ∧ l.length = 1) ∧
        (∃ l, cc.2.connections.lookup "Y" = some l ∧ l.length = 1)) := by
  unfold yosys_to_simcir at h
  have hmods : ∀ nm ∈ data.modules, ∃ m, process_module pms nm.2 = .ok m := by
    refine foldlM_ok_forall ?_ data.modules [] res h
    intro s nm s' hstep
    cases hm : process_module pms nm.2 with
    | error e => rw [hm] at hstep; simp at hstep
    | ok mout => exact ⟨mout, rfl⟩
  intro nm hnm
  obtain ⟨m, hm⟩ := hmods nm hnm
  have hcore : ∃ st, process_module_core pms nm.2 = .ok st := by
    unfold process_module at hm
    cases hc : process_module_core pms nm.2 with
    | error e => rw [hc] at hm; simp at hm
    | ok st => exact ⟨st, rfl⟩
  obtain ⟨st, hst⟩ := hcore
  unfold process_module_core at hst
  cases hp : nm.2.ports.foldlM (fun st pp => process_port st pp.1 pp.2)
      (⟨0, [], []⟩ : ConvSt) with
  | error e => rw [hp] at hst; simp at hst
  | ok st1 =>
    rw [hp] at hst
    constructor
    · refine foldlM_ok_forall ?_ nm.2.ports _ _ hp
      intro s pp s' hstep
      exact process_port_ok_len hstep
    · refine foldlM_ok_forall ?_ nm.2.cells _ _ hst
      intro s cc s' hstep hg
      exact gateAsserts_ok (process_cell_ok_gateAsserts hstep hg)

/-- C8 amended witness: on `C8data` the conversion succeeds, so module `b`'s
only port has a 1-bit list — instantiated from the amended theorem. -/
theorem C8_amended_witness : ([1] : List Nat).length = 1 := by
  have h := C8_amended C8data C8pms C8res (by rfl)
    ("b", ⟨[("i", ⟨"input", [1]⟩)], []⟩) (by decide)
  exact h.1 ("i", ⟨"input", [1]⟩) (by decide)

theorem insertLe_eq_orderedInsert (x : PData) (l : List PData)
    (hx : x.num.isSome = true) (hl : ∀ p ∈ l, p.num.isSome = true) :
    insertLe pdataLe x l = List.orderedInsert pdR x l := by
  induction l with
  | nil => rfl
  | cons y ys ih =>
    obtain ⟨xv, hxv⟩ := Option.isSome_iff_exists.1 hx
    obtain ⟨yv, hyv⟩ := Option.isSome_iff_exists.1 (hl y (List.mem_cons_self y ys))
    have hcond : pdataLe x y = true ↔ pdR x y := by
      simp [pdataLe, pdR, hxv, hyv]
    have ihy := ih fun p hp => hl p (List.mem_cons_of_mem _ hp)
    by_cases hc : pdR x y
    · rw [List.orderedInsert, if_pos hc]
      unfold insertLe
      rw [if_pos (hcond.2 hc)]
    · rw [List.orderedInsert, if_neg hc]
      unfold insertLe
      rw [if_neg (fun hb => hc (hcond.1 hb)), ihy]

theorem isortLe_eq_insertionSort (l : List PData)
    (hl : ∀ p ∈ l, p.num.isSome = true) :
    isortLe pdataLe l = List.insertionSort pdR l := by
  induction l with
  | nil => rfl
  | cons x xs ih =>
    have hxs : ∀ p ∈ xs, p.num.isSome = true :=
      fun p hp => hl p (List.mem_cons_of_mem _ hp)
    have hsorted_mem : ∀ p ∈ List.insertionSort pdR xs, p.num.isSome = true :=
      fun p hp => hxs p ((List.perm_insertionSort pdR xs).mem_iff.1 hp)
    show insertLe pdataLe x (isortLe pdataLe xs) = _
    rw [ih hxs, List.insertionSort]
    exact insertLe_eq_orderedInsert x _ (hl x (List.mem_cons_self x xs)) hsorted_mem

theorem isortLe_sorted (l : List PData) (hl : ∀ p ∈ l, p.num.isSome = true) :
    List.Sorted pdR (isortLe pdataLe l) := by
  rw [isortLe_eq_insertionSort l hl]
  exact List.sorted_insertionSort pdR l

theorem mkSlots_keys (pre : String) (l : List PData) :
    (mkSlots pre l).map Prod.fst = l.map PData.name := by
  unfold mkSlots
  rw [List.map_map]
  have : (Prod.fst ∘ fun ip : Nat × PData => (ip.2.name, pre ++ toString ip.1)) =
      PData.name ∘ Prod.snd := rfl
  rw [this, ← List.map_map]
  rw [List.enum_map_snd]

theorem mkSlots_mem_get (pre : String) (l : List PData) (i : Nat) (h : i < l.length) :
    ((l.get ⟨i, h⟩).name, pre ++ toString i) ∈ mkSlots pre l := by
  unfold mkSlots
  refine List.mem_map.2 ⟨(i, l.get ⟨i, h⟩), ?_, rfl⟩
  rw [List.mk_mem_enum_iff_getElem?]
  simp [List.getElem?_eq_getElem h]

theorem lookup_of_mem_nodup {κ β : Type} [BEq κ] [LawfulBEq κ]
    (l : List (κ × β)) (k : κ) (v : β)
    (hnd : (l.map Prod.fst).Nodup) (hmem : (k, v) ∈ l) : l.lookup k = some v := by
  induction l with
  | nil => simp at hmem
  | cons kv rest ih =>
    obtain ⟨k₀, v₀⟩ := kv
    rcases List.mem_cons.1 hmem with heq | hmem'
    · cases heq
      simp
    · have hk : k ≠ k₀ := by
        intro hkk
        subst hkk
        have hkm : k ∈ rest.map Prod.fst := by
          have := List.mem_map_of_mem Prod.fst hmem'
          simpa using this
        exact (List.nodup_cons.1 hnd).1 hkm
      rw [List.lookup_cons]
      rw [beq_eq_false_iff_ne.2 hk]
      exact ih (List.nodup_cons.1 hnd).2 hmem'

theorem partitionPorts_names :
    ∀ {ports : List (String × Port)} {ins outs : List PData},
    partitionPorts ports = .ok (ins, outs) →
    (ins.map PData.name ++ outs.map PData.name).Perm (ports.map Prod.fst) := by
  intro ports
  induction ports with
  | nil =>
    intro ins outs h
    cases h
    simp
  | cons pp rest ih =>
    intro ins outs h
    unfold partitionPorts at h
    split at h
    · cases hr : partitionPorts rest with
      | error e => rw [hr] at h; simp at h
      | ok io =>
        rw [hr] at h
        cases h
        simp only [List.map_cons, List.cons_append]
        exact (ih hr).cons pp.1
    · cases hr : partitionPorts rest with
      | error e => rw [hr] at h; simp at h
      | ok io =>
        rw [hr] at h
        cases h
        refine List.Perm.trans ?_ ((ih hr).cons pp.1)
        simp only [List.map_cons]
        exact List.perm_middle
    · simp at h

theorem order_ports_fold_preserved (g : String) :
    ∀ (l : List (String × Module)) (init pms : Portmaps),
    (∀ nm ∈ l, nm.1 ≠ g) →
    (l.foldlM (fun out nm =>
      (match module_portmap nm.2 with
      | Except.error e => Except.error e
      | Except.ok pm => Except.ok (jsSet out nm.1 pm) : Except Err Portmaps)) init) =
      Except.ok pms →
    pms.lookup g = init.lookup g := by
  intro l
  induction l with
  | nil =>
    intro init pms _ h
    cases h
    rfl
  | cons nm rest ih =>
    intro init pms hne h
    rw [List.foldlM_cons] at h
    cases hmp : module_portmap nm.2 with
    | error e => rw [hmp] at h; simp [Bind.bind, Except.bind] at h
    | ok pmv =>
      rw [hmp] at h
      simp only [Bind.bind, Except.bind] at h
      have := ih (jsSet init nm.1 pmv) pms
        (fun x hx => hne x (List.mem_cons_of_mem _ hx)) h
      rw [this]
      exact lookup_jsSet_ne init nm.1 g pmv (hne nm (List.mem_cons_self nm rest)).symm

/-- C7: for every module (whose ports have distinct names and at least one
bit each), the input ports sorted ascending by bit index receive slots
`in0`, `in1`, ... and the output ports independently `out0`, `out1`, ...:
the sorted arrays are permutations of the declared port groups, sorted by
bit index, and the portmap sends the i-th sorted input (resp. output) name to
`"in" + i` (resp. `"out" + i`); and `$and`/`$or`/`$xor` (when no module
shadows them) receive the fixed mapping `{A: in0, B: in1, Y: out0}`. -/
theorem C7_port_slots :
    (∀ (mod : Module) (ins outs : List PData) (pm : List (String × String)),
      partitionPorts mod.ports = .ok (ins, outs) →
      (mod.ports.map Prod.fst).Nodup →
      (∀ p ∈ ins ++ outs, p.num.isSome = true) →
      module_portmap mod = .ok pm →
      (isortLe pdataLe ins).Perm ins ∧ List.Sorted pdR (isortLe pdataLe ins) ∧
      (isortLe pdataLe outs).Perm outs ∧ List.Sorted pdR (isortLe pdataLe outs) ∧
      (∀ (i : Nat) (h : i < (isortLe pdataLe ins).length),
        pm.lookup ((isortLe pdataLe ins).get ⟨i, h⟩).name = some ("in" ++ toString i)) ∧
      (∀ (i : Nat) (h : i < (isortLe pdataLe outs).length),
        pm.lookup ((isortLe pdataLe outs).get ⟨i, h⟩).name = some ("out" ++ toString i))) ∧
    (∀ (data : Netlist) (pms : Portmaps),
      order_ports data = .ok pms →
      ∀ g ∈ gateTypes, g ∉ data.modules.map Prod.fst →
        pms.lookup g = some binmap) := by
  constructor
  · intro mod ins outs pm hpart hnd hsome hpm
    unfold module_portmap at hpm
    rw [hpart] at hpm
    simp only [Except.ok.injEq] at hpm
    subst hpm
    have hInsSome : ∀ p ∈ ins, p.num.isSome = true :=
      fun p hp => hsome p (List.mem_append_left _ hp)
    have hOutsSome : ∀ p ∈ outs, p.num.isSome = true :=
      fun p hp => hsome p (List.mem_append_right _ hp)
    have permIns : ((isortLe pdataLe ins).map PData.name).Perm (ins.map PData.name) :=
      (isortLe_perm pdataLe ins).map PData.name
    have permOuts : ((isortLe pdataLe outs).map PData.name).Perm (outs.map PData.name) :=
      (isortLe_perm pdataLe outs).map PData.name
    have permAll : ((isortLe pdataLe ins).map PData.name ++
        (isortLe pdataLe outs).map PData.name).Perm (mod.ports.map Prod.fst) :=
      (permIns.append permOuts).trans (partitionPorts_names hpart)
    have hkeysnd : ((isortLe pdataLe ins).map PData.name ++
        (isortLe pdataLe outs).map PData.name).Nodup := permAll.nodup_iff.2 hnd
    have hkeys : ((mkSlots "in" (isortLe pdataLe ins) ++
        mkSlots "out" (isortLe pdataLe outs)).map Prod.fst) =
        (isortLe pdataLe ins).map PData.name ++ (isortLe pdataLe outs).map PData.name := by
      rw [List.map_append, mkSlots_keys, mkSlots_keys]
    have hobj : jsObj (mkSlots "in" (isortLe pdataLe ins) ++
        mkSlots "out" (isortLe pdataLe outs)) =
        mkSlots "in" (isortLe pdataLe ins) ++ mkSlots "out" (isortLe pdataLe outs) :=
      jsObj_eq_self _ (by rw [hkeys]; exact hkeysnd)
    rw [hobj]
    refine ⟨isortLe_perm pdataLe ins, isortLe_sorted ins hInsSome,
      isortLe_perm pdataLe outs, isortLe_sorted outs hOutsSome, ?_, ?_⟩
    · intro i h
      refine lookup_of_mem_nodup _ _ _ (by rw [hkeys]; exact hkeysnd) ?_
      exact List.mem_append_left _ (mkSlots_mem_get "in" _ i h)
    · intro i h
      refine lookup_of_mem_nodup _ _ _ (by rw [hkeys]; exact hkeysnd) ?_
      exact List.mem_append_right _ (mkSlots_mem_get "out" _ i h)
  · intro data pms h g hg hgnot
    unfold order_ports at h
    have hne : ∀ nm ∈ data.modules, nm.1 ≠ g := by
      intro nm hnm hcontra
      exact hgnot (hcontra ▸ List.mem_map_of_mem Prod.fst hnm)
    rw [order_ports_fold_preserved g data.modules gatesBase pms hne h]
    simp only [gateTypes, List.mem_cons, List.not_mem_nil, or_false] at hg
    rcases hg with rfl | rfl | rfl <;> rfl

/-- C7 witness: the spec section 8 example — inputs at bit indices [3, 1, 2]
resolve to `in0`(idx 1), `in1`(idx 2), `in2`(idx 3); the output gets `out0`;
`$and` maps to `binmap`. -/
theorem C7_port_slots_witness :
    partitionPorts C7mod.ports = .ok (C7ins, C7outs) ∧
    isortLe pdataLe C7ins = [⟨"p1", some 1⟩, ⟨"p2", some 2⟩, ⟨"p3", some 3⟩] ∧
    module_portmap C7mod = .ok C7pm ∧
    List.Sorted pdR (isortLe pdataLe C7ins) ∧
    C7pm.lookup "p1" = some "in0" ∧ C7pm.lookup "p2" = some "in1" ∧
    C7pm.lookup "p3" = some "in2" ∧ C7pm.lookup "q" = some "out0" ∧
    order_ports C7data = .ok (gatesBase ++ [("m7", C7pm)]) ∧
    (gatesBase ++ [("m7", C7pm)]).lookup "$and" = some binmap := by
  have h := C7_port_slots.1 C7mod C7ins C7outs C7pm rfl (by decide) (by decide) rfl
  have hg := C7_port_slots.2 C7data (gatesBase ++ [("m7", C7pm)]) rfl "$and"
    (by decide) (by decide)
  refine ⟨rfl, rfl, rfl, h.2.1, ?_, ?_, ?_, ?_, rfl, hg⟩
  · exact h.2.2.2.2.1 0 (by decide)
  · exact h.2.2.2.2.1 1 (by decide)
  · exact h.2.2.2.2.1 2 (by decide)
  · exact h.2.2.2.2.2 0 (by decide)

/-- C10 witness: the empty module diagram is laid out without error and gets
width 256, height 64. -/
theorem C10_layout_witness :
    layout_circuit (fun _ => (0, 0)) ⟨800, 500, [], []⟩ = .ok ⟨256, 64, [], []⟩ ∧
    (256 : Nat) = (([] : List Device).map Device.x).max?.getD 0 + 256 := by
  have h := C10_layout.2.1 (fun _ => (0, 0)) ⟨800, 500, [], []⟩ rfl rfl
  have h2 := (C10_layout.1 (fun _ => (0, 0)) ⟨800, 500, [], []⟩ ⟨256, 64, [], []⟩ h).1
  exact ⟨h, h2⟩

end Y2D
